import Mathlib

/-!
Verification development for the track-id MP3 enrichment tool.

The definitions below are a shallow embedding of the Python modules
track_id/mp3_utils.py, track_id/bandcamp_api.py, track_id/musicbrainz_api.py
and track_id/data_sources.py.  Python dictionaries are modelled as
association lists with first-match lookup and in-place insertion, mutagen
ID3 frame maps as association lists from frame keys to a Frame value, byte
strings as lists of natural numbers below 256, and network effects
(artwork download, per-source enrichment) as explicit Option / Except
parameters describing the outcome of the corresponding call.
-/

/-- Lookup in a Python dictionary modelled as an association list:
returns the value of the first entry whose key equals k. -/
def dlookup {β : Type} (k : String) : List (String × β) → Option β
  | [] => none
  | (k1, v) :: rest => if k1 = k then some v else dlookup k rest

/-- Assignment d[k] = v on a Python dictionary modelled as an association
list: replaces the value in place when the key exists, appends otherwise. -/
def dinsert {β : Type} (k : String) (v : β) : List (String × β) → List (String × β)
  | [] => [(k, v)]
  | (k1, v1) :: rest => if k1 = k then (k, v) :: rest else (k1, v1) :: dinsert k v rest

/-- Check that the first list is an initial run of the second,
comparing elementwise. -/
def listStarts {α : Type} [DecidableEq α] : List α → List α → Bool
  | [], _ => true
  | _ :: _, [] => false
  | a :: as, b :: bs => if a = b then listStarts as bs else false

/-- Check that the needle occurs contiguously somewhere in the haystack,
by scanning every tail.  Models the Python substring operator. -/
def listHasRun {α : Type} [DecidableEq α] (needle : List α) : List α → Bool
  | [] => listStarts needle []
  | b :: bs => listStarts needle (b :: bs) || listHasRun needle bs

/-- Python needle in hay on strings. -/
def strIn (needle hay : String) : Bool := listHasRun needle.data hay.data

/-- Python s.startswith(pre). -/
def strStarts (s pre : String) : Bool := listStarts pre.data s.data

/-- Python s.endswith(suffix). -/
def strEnds (s suffix : String) : Bool := listStarts suffix.data.reverse s.data.reverse

/-- Python s.lower(), modelled characterwise. -/
def pyLower (s : String) : String := String.mk (s.data.map Char.toLower)

/-- Python sep.join(parts). -/
def pyJoin (sep : String) : List String → String
  | [] => ""
  | [x] => x
  | x :: y :: rest => x ++ sep ++ pyJoin sep (y :: rest)

/-- Python s.isdigit(): non-empty and all characters are digits. -/
def pyIsDigit (s : String) : Bool := !s.data.isEmpty && s.data.all Char.isDigit

/-- One mutagen ID3 frame: either a text frame carrying a list of strings
(attribute text) or an attached-picture frame (APIC) carrying an optional
mime string, a picture type code, a description and image bytes. -/
inductive Frame where
  | text (ts : List String)
  | apic (mime : Option String) (ptype : Nat) (desc : String) (data : List Nat)
deriving DecidableEq, Repr

/-- A mutagen ID3 tag map: frame keys to frames. -/
abbrev ID3 := List (String × Frame)

/-- Display value one entry of MP3File._get_metadata produces for a frame:
text frames yield their first text (empty string when the text list is
empty), APIC frames under a key starting with APIC: yield an artwork
marker built from the first character of the mime string (the Python code
indexes the mime string at position zero), other frames are skipped. -/
def frameValue (key : String) (f : Frame) : Option String :=
  match f with
  | Frame.text ts => some (ts.headD "")
  | Frame.apic mime _ _ _ =>
      if strStarts key "APIC:" then
        match mime with
        | some m =>
            some ("Artwork (" ++ (if m.data.isEmpty then "unknown" else String.mk (m.data.take 1)) ++ ")")
        | none => some "Artwork"
      else none

/-- MP3File._get_metadata: build the Tag Set dictionary from the ID3 frame
map, iterating the frames in order. -/
def get_metadata : ID3 → List (String × String)
  | [] => []
  | (k, f) :: rest =>
      match frameValue k f with
      | some v => (k, v) :: get_metadata rest
      | none => get_metadata rest

/-- The writable-frame table tag_classes of MP3File.update_metadata:
only these exact keys can be written by the text-field loop. -/
def tag_classes : List String := ["TIT2", "TPE1", "TALB", "TDRC", "TCOM", "TXXX"]

/-- Condition of the text-field loop: the key is absent from the current
Tag Set or mapped to a value that is falsy (the empty string). -/
def fieldEmpty (tags : List (String × String)) (k : String) : Bool :=
  match dlookup k tags with
  | none => true
  | some v => decide (v = "")

/-- The text-field loop of MP3File.update_metadata: walk the candidate
metadata entries in order, skip the artwork_url entry, and for every key
that is empty in the Tag Set snapshot and listed in tag_classes, write a
text frame and record the value in the added map. -/
def applyTextFields (tags : List (String × String)) :
    List (String × String) → ID3 → List (String × String) → ID3 × List (String × String)
  | [], id3, added => (id3, added)
  | (k, v) :: rest, id3, added =>
      if k = "artwork_url" then
        applyTextFields tags rest id3 added
      else if fieldEmpty tags k then
        if k ∈ tag_classes then
          applyTextFields tags rest (dinsert k (Frame.text [v]) id3) (dinsert k v added)
        else
          applyTextFields tags rest id3 added
      else
        applyTextFields tags rest id3 added

/-- Python any(key.startswith(APIC) for key in id3.keys()). -/
def hasApicKey (id3 : ID3) : Bool := id3.any (fun kf => strStarts kf.1 "APIC")

/-- get_mime_type of mp3_utils.py / bandcamp_api.py: URL extension hints
first, then magic-byte signatures, defaulting to JPEG. -/
def get_mime_type (url : String) (content : List Nat) : String :=
  if strEnds (pyLower url) ".png" then "image/png"
  else if strEnds (pyLower url) ".jpg" || strEnds (pyLower url) ".jpeg" then "image/jpeg"
  else if strEnds (pyLower url) ".gif" then "image/gif"
  else if strEnds (pyLower url) ".webp" then "image/webp"
  else if listStarts [0xff, 0xd8, 0xff] content then "image/jpeg"
  else if listStarts [0x89, 0x50, 0x4e, 0x47, 0x0d, 0x0a, 0x1a, 0x0a] content then "image/png"
  else if listStarts [0x47, 0x49, 0x46, 0x38, 0x37, 0x61] content
          || listStarts [0x47, 0x49, 0x46, 0x38, 0x39, 0x61] content then "image/gif"
  else if listStarts [0x52, 0x49, 0x46, 0x46] content
          && decide ((content.drop 8).take 4 = [0x57, 0x45, 0x42, 0x50]) then "image/webp"
  else "image/jpeg"

/-- Outcome of MP3File.update_metadata: the frame map that is saved, the
added map that is returned, and whether download_artwork was invoked. -/
structure UpdateOutcome where
  id3 : ID3
  added : List (String × String)
  fetchPerformed : Bool
deriving DecidableEq, Repr

/-- MP3File.update_metadata.  The Tag Set snapshot is read from the frame
map (self.metadata reads the same file the frames were loaded from); the
outcome of the download_artwork network call is passed in as fetchResult
(none models a failed download, which download_artwork reports as None). -/
def update_metadata (id3 : ID3) (newMeta : List (String × String))
    (fetchResult : Option (List Nat)) : UpdateOutcome :=
  let tags := get_metadata id3
  let step := applyTextFields tags newMeta id3 []
  let id3a := step.1
  let added := step.2
  match dlookup "artwork_url" newMeta with
  | some url =>
      if url = "" then
        { id3 := id3a, added := added, fetchPerformed := false }
      else if hasApicKey id3a then
        { id3 := id3a,
          added := dinsert "artwork" "Artwork already exists, skipped" added,
          fetchPerformed := false }
      else
        match fetchResult with
        | none => { id3 := id3a, added := added, fetchPerformed := true }
        | some data =>
            let mime := get_mime_type url data
            { id3 := dinsert "APIC:" (Frame.apic (some mime) 3 "Cover (front)" data) id3a,
              added := dinsert "artwork" ("Added album artwork (" ++ mime ++ ")") added,
              fetchPerformed := true }
  | none => { id3 := id3a, added := added, fetchPerformed := false }

/-- One Bandcamp autocomplete result, as read by bandcamp_api.py
find_matching_track: an optional entity-type discriminator and optional
band_name and name fields (absent dictionary keys are none). -/
structure BCResult where
  type : Option String
  band_name : Option String
  name : Option String
deriving DecidableEq, Repr

/-- Artist predicate of the Bandcamp matcher: bidirectional
case-insensitive substring test between the seed artist and the band_name
field (absent field read via get with default empty string). -/
def bcArtistOk (artist : String) (r : BCResult) : Bool :=
  strIn (pyLower artist) (pyLower (r.band_name.getD ""))
    || strIn (pyLower (r.band_name.getD "")) (pyLower artist)

/-- Title predicate of the Bandcamp matcher: bidirectional
case-insensitive substring test between the seed title and the name
field. -/
def bcTitleOk (title : String) (r : BCResult) : Bool :=
  strIn (pyLower title) (pyLower (r.name.getD ""))
    || strIn (pyLower (r.name.getD "")) (pyLower title)

/-- Check result.get(type) == t. -/
def isTrackType (r : BCResult) : Bool := decide (r.type = some "t")

/-- Loop body of bandcamp_api.py find_matching_track over the results
list: only track-typed entries are tested, the first entry passing both
predicates is returned. -/
def bcScan (artist title : String) : List BCResult → Option BCResult
  | [] => none
  | r :: rest =>
      if isTrackType r then
        if bcArtistOk artist r && bcTitleOk title r then some r
        else bcScan artist title rest
      else bcScan artist title rest

/-- bandcamp_api.py find_matching_track: none when the raw response has no
auto key, otherwise scan the results list in order. -/
def bc_find_matching_track (searchResults : Option (List BCResult)) (artist title : String) :
    Option BCResult :=
  match searchResults with
  | none => none
  | some rs => bcScan artist title rs

/-- One MusicBrainz artist-credit entry: a dictionary with or without a
name key, a bare string, or a value of any other shape (skipped by every
loop that reads credits). -/
inductive Credit where
  | obj (name : Option String)
  | str (s : String)
  | other
deriving DecidableEq, Repr

/-- Collect credit names the way both musicbrainz_api.py loops do:
dictionaries contribute their name value, bare strings contribute
themselves, everything else is skipped. -/
def creditNames : List Credit → List String
  | [] => []
  | Credit.obj (some n) :: rest => n :: creditNames rest
  | Credit.obj none :: rest => creditNames rest
  | Credit.str s :: rest => s :: creditNames rest
  | Credit.other :: rest => creditNames rest

/-- Name of a single credit entry, as read by the composer branch of
extract_musicbrainz_metadata on the first credit. -/
def creditName (c : Credit) : Option String :=
  match c with
  | Credit.obj (some n) => some n
  | Credit.obj none => none
  | Credit.str s => some s
  | Credit.other => none

/-- One release entry of a MusicBrainz recording: optional title and date
strings (an absent key is none). -/
structure Release where
  title : Option String
  date : Option String
deriving DecidableEq, Repr

/-- One MusicBrainz genre tag: a mandatory name and an optional popularity
count (read via get with default zero). -/
structure MBTag where
  name : String
  count : Option Int
deriving DecidableEq, Repr

/-- A MusicBrainz recording as read by musicbrainz_api.py: optional title,
artist-credit list, release list and tag list (an absent key and an empty
list are treated identically by every consumer, so both are the empty
list). -/
structure MBRecording where
  title : Option String
  artistCredit : List Credit
  releases : List Release
  tags : List MBTag
deriving DecidableEq, Repr

/-- Artist text of a recording: space-join of the credit names, the empty
string when there are no credits. -/
def mbArtistText (r : MBRecording) : String := pyJoin " " (creditNames r.artistCredit)

/-- Combined predicate of the MusicBrainz matcher: bidirectional
case-insensitive substring test on artist text and on title. -/
def mbMatches (artist title : String) (r : MBRecording) : Bool :=
  (strIn (pyLower artist) (pyLower (mbArtistText r))
      || strIn (pyLower (mbArtistText r)) (pyLower artist))
    && (strIn (pyLower title) (pyLower (r.title.getD ""))
      || strIn (pyLower (r.title.getD "")) (pyLower title))

/-- Loop body of musicbrainz_api.py find_matching_track: first recording
passing both predicates, in result order. -/
def mbScan (artist title : String) : List MBRecording → Option MBRecording
  | [] => none
  | r :: rest => if mbMatches artist title r then some r else mbScan artist title rest

/-- musicbrainz_api.py find_matching_track: none when the raw response has
no recordings key, otherwise scan the recordings in order. -/
def mb_find_matching_track (searchResults : Option (List MBRecording)) (artist title : String) :
    Option MBRecording :=
  match searchResults with
  | none => none
  | some rs => mbScan artist title rs

/-- Python sorted(tags, key count with default zero, reverse) — a stable
sort placing larger counts first and keeping source order on ties. -/
def tagSortDescending (tags : List MBTag) : List MBTag :=
  tags.mergeSort (fun a b => decide (b.count.getD 0 ≤ a.count.getD 0))

/-- Title branch of extract_musicbrainz_metadata. -/
def mbTitleField (r : MBRecording) : List (String × String) :=
  match r.title with
  | some t => [("TIT2", t)]
  | none => []

/-- Artist branch of extract_musicbrainz_metadata: emitted whenever the
credit list is non-empty, even when no credit contributes a name. -/
def mbArtistField (r : MBRecording) : List (String × String) :=
  if r.artistCredit = [] then [] else [("TPE1", mbArtistText r)]

/-- Python date_str.split on a dash, first piece, guarded by the dash
membership test of the source (without a dash the whole string is used):
in both cases the result is the run of characters before the first dash. -/
def pyYear (d : String) : String :=
  if d.data.contains '-' then String.mk (d.data.takeWhile (fun c => c != '-')) else d

/-- Album part of the release branch of extract_musicbrainz_metadata:
reads the title of the first release only. -/
def mbAlbumField (r : MBRecording) : List (String × String) :=
  match r.releases with
  | [] => []
  | release :: _ =>
      match release.title with
      | some t => [("TALB", t)]
      | none => []

/-- Year part of the release branch of extract_musicbrainz_metadata:
reads the date of the first release only, skips an absent or empty date,
and emits the piece before the first dash only when it passes isdigit. -/
def mbYearField (r : MBRecording) : List (String × String) :=
  match r.releases with
  | [] => []
  | release :: _ =>
      match release.date with
      | some d =>
          if d = "" then []
          else if pyIsDigit (pyYear d) then [("TDRC", pyYear d)] else []
      | none => []

/-- Composer branch of extract_musicbrainz_metadata: the name of the first
credit entry when it has one, nothing otherwise. -/
def mbComposerField (r : MBRecording) : List (String × String) :=
  match r.artistCredit with
  | [] => []
  | c :: _ =>
      match creditName c with
      | some n => [("TCOM", n)]
      | none => []

/-- Genre branch of extract_musicbrainz_metadata: names of the top three
tags of the stable descending count sort, comma-space joined. -/
def mbGenreField (r : MBRecording) : List (String × String) :=
  if r.tags = [] then []
  else
    let top := ((tagSortDescending r.tags).take 3).map MBTag.name
    if top = [] then [] else [("TXXX:GENRE", pyJoin ", " top)]

/-- extract_musicbrainz_metadata: the metadata dictionary built by the
five branches in program order; the branches emit pairwise distinct keys,
so the dictionary is their concatenation. -/
def extract_musicbrainz_metadata (r : MBRecording) : List (String × String) :=
  mbTitleField r ++ mbArtistField r ++ mbAlbumField r ++ mbYearField r ++ mbComposerField r
    ++ mbGenreField r

/-- One registered data source as seen by enrich_with_all_sources: its
name and the outcome of its enrich_mp3_file call on the given file (ok
with the per-source result record, or error with the exception text). -/
structure SourceOutcome (α : Type) where
  name : String
  outcome : Except String α

/-- Check that an outcome is a success. -/
def isOk {α : Type} : Except String α → Bool
  | Except.ok _ => true
  | Except.error _ => false

/-- Loop of enrich_with_all_sources over the registered sources: record
every outcome in the results dictionary keyed by source name, and keep
the first successful result. -/
def enrichLoop {α : Type} :
    List (SourceOutcome α) → List (String × Except String α) → Option α →
      List (String × Except String α) × Option α
  | [], results, success => (results, success)
  | s :: rest, results, success =>
      enrichLoop rest (dinsert s.name s.outcome results)
        (match s.outcome, success with
          | Except.ok r, none => some r
          | _, _ => success)

/-- Return value of a successful enrich_with_all_sources call. -/
structure EnrichAllResult (α : Type) where
  file_path : String
  successful_enrichment : α
  all_results : List (String × Except String α)

/-- data_sources.py enrich_with_all_sources, from the point where the
artist and title seed has been derived: run the loop over all registered
sources and fail only when no source succeeded. -/
def enrich_with_all_sources {α : Type} (filePath : String) (sources : List (SourceOutcome α)) :
    Except String (EnrichAllResult α) :=
  let loopOut := enrichLoop sources [] none
  match loopOut.2 with
  | some r =>
      Except.ok { file_path := filePath, successful_enrichment := r, all_results := loopOut.1 }
  | none => Except.error ("No data source could enrich the file \x27" ++ filePath ++ "\x27")

/-- First successful outcome in registration order, the reference
description of the success bookkeeping of the loop. -/
def firstSuccess {α : Type} : List (SourceOutcome α) → Option α
  | [] => none
  | s :: rest =>
      match s.outcome with
      | Except.ok r => some r
      | Except.error _ => firstSuccess rest

/-- Shorthand for the state of the text-field loop inside update_metadata. -/
def textStage (id3 : ID3) (nm : List (String × String)) : ID3 × List (String × String) :=
  applyTextFields (get_metadata id3) nm id3 []

/-- A storefront candidate typed as a track with both text fields absent. -/
def blankTrack : BCResult := { type := some "t", band_name := none, name := none }

/-- The recording used by the spec scenario for genre extraction. -/
def scenarioRecording : MBRecording :=
  { title := none, artistCredit := [], releases := [],
    tags := [⟨"rock", some 10⟩, ⟨"alternative", some 5⟩, ⟨"x", some 1⟩, ⟨"y", some 1⟩] }

/-- A recording whose first release carries the dash-free date 12345. -/
def badYearRecording : MBRecording :=
  { title := none, artistCredit := [], releases := [{ title := none, date := some "12345" }],
    tags := [] }

/-- The release used by the year check. -/
def yearCheckRelease : Release := { title := none, date := some "2024-01-01" }

/-- The recording used by the year check. -/
def yearCheckRecording : MBRecording :=
  { title := none, artistCredit := [], releases := [yearCheckRelease], tags := [] }

/-- The recording used by the composer check. -/
def twoCreditRecording : MBRecording :=
  { title := none, artistCredit := [Credit.str "DJ A", Credit.str "MC B"], releases := [],
    tags := [] }

/-- A recording whose only artist credit is a dictionary without a name. -/
def namelessCreditRecording : MBRecording :=
  { title := none, artistCredit := [Credit.obj none], releases := [], tags := [] }

/-- Two concrete sources for the registry check: the first fails with a
source error, the second succeeds. -/
def checkSources : List (SourceOutcome Nat) :=
  [{ name := "Bandcamp", outcome := Except.error "boom" },
    { name := "MusicBrainz", outcome := Except.ok 7 }]

/-- Inserting at a key makes lookup of that key find the new value. -/
theorem dlookup_dinsert_self {β : Type} (k : String) (v : β) (l : List (String × β)) :
    dlookup k (dinsert k v l) = some v := by
  induction l with
  | nil => simp [dinsert, dlookup]
  | cons hd tl ih =>
      obtain ⟨k1, v1⟩ := hd
      by_cases h : k1 = k
      · simp [dinsert, h, dlookup]
      · simp [dinsert, h, dlookup, ih]

/-- Inserting at a different key leaves a lookup unchanged. -/
theorem dlookup_dinsert_ne {β : Type} {k1 k : String} (h : k1 ≠ k) (v : β)
    (l : List (String × β)) : dlookup k (dinsert k1 v l) = dlookup k l := by
  have hks : ¬ k = k1 := fun he => h he.symm
  induction l with
  | nil => simp [dinsert, dlookup, h]
  | cons hd tl ih =>
      obtain ⟨k2, v2⟩ := hd
      by_cases h2 : k2 = k1
      · simp [dinsert, h2, dlookup, h, hks]
      · by_cases h3 : k2 = k
        · simp [dinsert, h2, dlookup, h3, hks]
        · simp [dinsert, h2, dlookup, h3, ih]

/-- A successful lookup means the key is among the keys of the list. -/
theorem mem_keys_of_dlookup {β : Type} {k : String} {v : β} :
    ∀ {l : List (String × β)}, dlookup k l = some v → k ∈ l.map Prod.fst := by
  intro l
  induction l with
  | nil => intro h; simp [dlookup] at h
  | cons hd tl ih =>
      obtain ⟨k1, v1⟩ := hd
      by_cases h1 : k1 = k
      · intro _; simp [h1]
      · intro h; simp [dlookup, h1] at h; simp [ih h]

/-- Key list of an insertion: unchanged when the key already occurs,
extended by the key at the end otherwise. -/
theorem keys_dinsert {β : Type} (k : String) (v : β) :
    ∀ (l : List (String × β)), (dinsert k v l).map Prod.fst =
      if k ∈ l.map Prod.fst then l.map Prod.fst else l.map Prod.fst ++ [k] := by
  intro l
  induction l with
  | nil => simp [dinsert]
  | cons hd tl ih =>
      obtain ⟨k1, v1⟩ := hd
      by_cases h1 : k1 = k
      · subst h1; simp [dinsert]
      · have hks : ¬ k = k1 := fun he => h1 he.symm
        by_cases h2 : k ∈ tl.map Prod.fst
        · simp [dinsert, h1, ih, h2, hks]
        · simp [dinsert, h1, ih, h2, hks]

/-- Insertion keeps the key list duplicate-free. -/
theorem keys_dinsert_nodup {β : Type} (k : String) (v : β) {l : List (String × β)}
    (hnd : (l.map Prod.fst).Nodup) : ((dinsert k v l).map Prod.fst).Nodup := by
  rw [keys_dinsert]
  by_cases h : k ∈ l.map Prod.fst
  · simpa [h] using hnd
  · simp only [h, if_false]
    refine List.Nodup.append hnd (List.nodup_singleton k) ?_
    intro a ha hb
    simp only [List.mem_singleton] at hb
    exact h (hb ▸ ha)

/-- Inserting at a key with a different name does not change how often a
key occurs in the key list. -/
theorem count_keys_dinsert_ne {β : Type} {j k : String} (h : j ≠ k) (v : β) :
    ∀ (l : List (String × β)),
      ((dinsert j v l).map Prod.fst).count k = (l.map Prod.fst).count k := by
  intro l
  induction l with
  | nil => simp [dinsert, List.count_cons, h]
  | cons hd tl ih =>
      obtain ⟨k1, v1⟩ := hd
      by_cases h1 : k1 = j
      · simp [dinsert, h1, List.count_cons, h]
      · simp [dinsert, h1, List.count_cons, ih]

/-- When the predicate rejects the inserted key, an existence scan over
the keys is unchanged by the insertion. -/
theorem any_keys_dinsert {β : Type} {p : String → Bool} {j : String} (h : p j = false)
    (v : β) : ∀ (l : List (String × β)),
      (dinsert j v l).any (fun kf => p kf.1) = l.any (fun kf => p kf.1) := by
  intro l
  induction l with
  | nil => simp [dinsert, h]
  | cons hd tl ih =>
      obtain ⟨k1, v1⟩ := hd
      by_cases h1 : k1 = j
      · simp [dinsert, h1, h]
      · simp [dinsert, h1, List.any_cons, ih]

/-- Lookup distributes over appending dictionaries fragment by fragment. -/
theorem dlookup_append {β : Type} (k : String) (l1 l2 : List (String × β)) :
    dlookup k (l1 ++ l2) =
      match dlookup k l1 with
      | some v => some v
      | none => dlookup k l2 := by
  induction l1 with
  | nil => simp [dlookup]
  | cons hd tl ih =>
      obtain ⟨k1, v1⟩ := hd
      by_cases h : k1 = k
      · simp [dlookup, h]
      · simp [dlookup, h, ih]

/-- Every key of the Tag Set read by get_metadata is a frame key. -/
theorem dlookup_get_metadata_mem {k v : String} :
    ∀ {id3 : ID3}, dlookup k (get_metadata id3) = some v → k ∈ id3.map Prod.fst := by
  intro id3
  induction id3 with
  | nil => intro h; simp [get_metadata, dlookup] at h
  | cons hd tl ih =>
      obtain ⟨k1, f1⟩ := hd
      intro h
      simp only [get_metadata] at h
      cases hfv : frameValue k1 f1 with
      | none => rw [hfv] at h; simp [ih h]
      | some v1 =>
          rw [hfv] at h
          by_cases h1 : k1 = k
          · simp [h1]
          · simp only [dlookup, h1, if_false] at h
            simp [ih h]

/-- On a duplicate-free frame map, every Tag Set entry is the display
value of the frame stored under the same key. -/
theorem dlookup_get_metadata_frame {k v : String} :
    ∀ {id3 : ID3}, (id3.map Prod.fst).Nodup →
      dlookup k (get_metadata id3) = some v →
      ∃ f, dlookup k id3 = some f ∧ frameValue k f = some v := by
  intro id3
  induction id3 with
  | nil => intro _ h; simp [get_metadata, dlookup] at h
  | cons hd tl ih =>
      obtain ⟨k1, f1⟩ := hd
      intro hnd h
      simp only [List.map_cons, List.nodup_cons] at hnd
      simp only [get_metadata] at h
      by_cases h1 : k1 = k
      · subst h1
        cases hfv : frameValue k1 f1 with
        | none =>
            rw [hfv] at h
            exact absurd (dlookup_get_metadata_mem h) hnd.1
        | some v1 =>
            rw [hfv] at h
            simp only [dlookup, if_pos] at h
            exact ⟨f1, by simp [dlookup], by rw [hfv, h]⟩
      · cases hfv : frameValue k1 f1 with
        | none =>
            rw [hfv] at h
            obtain ⟨f, hf, hval⟩ := ih hnd.2 h
            exact ⟨f, by simp [dlookup, h1, hf], hval⟩
        | some v1 =>
            rw [hfv] at h
            simp only [dlookup, h1, if_false] at h
            obtain ⟨f, hf, hval⟩ := ih hnd.2 h
            exact ⟨f, by simp [dlookup, h1, hf], hval⟩

/-- Every writable frame key differs from the artwork reference key. -/
theorem tag_classes_ne_artwork : ∀ k ∈ tag_classes, k ≠ "artwork_url" := by decide

/-- No writable frame key is a picture key. -/
theorem tag_classes_not_apic : ∀ k ∈ tag_classes, strStarts k "APIC" = false := by decide

/-- The artwork note key is not a writable frame key. -/
theorem artwork_not_tag_class : "artwork" ∉ tag_classes := by decide

/-- The picture frame key is not a writable frame key. -/
theorem apic_not_tag_class : "APIC:" ∉ tag_classes := by decide

/-- The text-field loop does not touch a key that is non-empty in the Tag
Set snapshot or not writable: both the frame map and the added map keep
their binding for that key. -/
theorem applyTextFields_no_write (tags : List (String × String)) (k : String)
    (h : fieldEmpty tags k = false ∨ k ∉ tag_classes) :
    ∀ (nm : List (String × String)) (id3 : ID3) (added : List (String × String)),
      dlookup k (applyTextFields tags nm id3 added).1 = dlookup k id3 ∧
        dlookup k (applyTextFields tags nm id3 added).2 = dlookup k added := by
  intro nm
  induction nm with
  | nil => intro id3 added; simp [applyTextFields]
  | cons hd rest ih =>
      obtain ⟨k0, v0⟩ := hd
      intro id3 added
      by_cases ha : k0 = "artwork_url"
      · simpa [applyTextFields, ha] using ih id3 added
      · by_cases he : fieldEmpty tags k0
        · by_cases hc : k0 ∈ tag_classes
          · have hne : k0 ≠ k := by
              intro hkk
              subst hkk
              rcases h with h | h
              · rw [he] at h; simp at h
              · exact h hc
            have := ih (dinsert k0 (Frame.text [v0]) id3) (dinsert k0 v0 added)
            simp only [applyTextFields, ha, if_false, he, if_true, hc, if_pos] at *
            rw [this.1, this.2, dlookup_dinsert_ne hne, dlookup_dinsert_ne hne]
            exact ⟨rfl, rfl⟩
          · simpa [applyTextFields, ha, he, hc] using ih id3 added
        · simpa [applyTextFields, ha, he] using ih id3 added

/-- The text-field loop does not touch a key that never occurs in the
candidate metadata. -/
theorem applyTextFields_no_occurrence (tags : List (String × String)) (k : String) :
    ∀ (nm : List (String × String)) (id3 : ID3) (added : List (String × String)),
      k ∉ nm.map Prod.fst →
      dlookup k (applyTextFields tags nm id3 added).1 = dlookup k id3 ∧
        dlookup k (applyTextFields tags nm id3 added).2 = dlookup k added := by
  intro nm
  induction nm with
  | nil => intro id3 added _; simp [applyTextFields]
  | cons hd rest ih =>
      obtain ⟨k0, v0⟩ := hd
      intro id3 added hk
      simp only [List.map_cons, List.mem_cons] at hk
      push_neg at hk
      have hne : k0 ≠ k := fun he => hk.1 he.symm
      by_cases ha : k0 = "artwork_url"
      · simpa [applyTextFields, ha] using ih id3 added hk.2
      · by_cases he : fieldEmpty tags k0
        · by_cases hc : k0 ∈ tag_classes
          · have := ih (dinsert k0 (Frame.text [v0]) id3) (dinsert k0 v0 added) hk.2
            simp only [applyTextFields, ha, if_false, he, if_true, hc, if_pos] at *
            rw [this.1, this.2, dlookup_dinsert_ne hne, dlookup_dinsert_ne hne]
            exact ⟨rfl, rfl⟩
          · simpa [applyTextFields, ha, he, hc] using ih id3 added hk.2
        · simpa [applyTextFields, ha, he] using ih id3 added hk.2

/-- A key that is empty in the Tag Set snapshot, writable, and supplied by
the candidate metadata (whose keys are duplicate-free, as in a Python
dictionary) ends up written as a fresh text frame and recorded in the
added map with the supplied value. -/
theorem applyTextFields_write (tags : List (String × String)) (k v : String)
    (h1 : fieldEmpty tags k = true) (h2 : k ∈ tag_classes) :
    ∀ (nm : List (String × String)) (id3 : ID3) (added : List (String × String)),
      (nm.map Prod.fst).Nodup → dlookup k nm = some v →
      dlookup k (applyTextFields tags nm id3 added).1 = some (Frame.text [v]) ∧
        dlookup k (applyTextFields tags nm id3 added).2 = some v := by
  intro nm
  induction nm with
  | nil => intro id3 added _ hv; simp [dlookup] at hv
  | cons hd rest ih =>
      obtain ⟨k0, v0⟩ := hd
      intro id3 added hnd hv
      simp only [List.map_cons, List.nodup_cons] at hnd
      by_cases hk : k0 = k
      · subst hk
        simp only [dlookup, if_pos] at hv
        injection hv with hv0
        subst hv0
        have ha : k0 ≠ "artwork_url" := tag_classes_ne_artwork k0 h2
        have := applyTextFields_no_occurrence tags k0 rest
          (dinsert k0 (Frame.text [v0]) id3) (dinsert k0 v0 added) hnd.1
        simp only [applyTextFields, ha, if_false, h1, if_true, h2, if_pos]
        rw [this.1, this.2, dlookup_dinsert_self, dlookup_dinsert_self]
        exact ⟨rfl, rfl⟩
      · have hv2 : dlookup k rest = some v := by
          simpa [dlookup, hk] using hv
        by_cases ha : k0 = "artwork_url"
        · simpa [applyTextFields, ha] using ih id3 added hnd.2 hv2
        · by_cases he : fieldEmpty tags k0
          · by_cases hc : k0 ∈ tag_classes
            · simpa [applyTextFields, ha, he, hc] using
                ih (dinsert k0 (Frame.text [v0]) id3) (dinsert k0 v0 added) hnd.2 hv2
            · simpa [applyTextFields, ha, he, hc] using ih id3 added hnd.2 hv2
          · simpa [applyTextFields, ha, he] using ih id3 added hnd.2 hv2

/-- The added map built by the text-field loop keeps duplicate-free keys. -/
theorem applyTextFields_added_nodup (tags : List (String × String)) :
    ∀ (nm : List (String × String)) (id3 : ID3) (added : List (String × String)),
      (added.map Prod.fst).Nodup →
      ((applyTextFields tags nm id3 added).2.map Prod.fst).Nodup := by
  intro nm
  induction nm with
  | nil => intro id3 added h; simpa [applyTextFields] using h
  | cons hd rest ih =>
      obtain ⟨k0, v0⟩ := hd
      intro id3 added h
      by_cases ha : k0 = "artwork_url"
      · simpa [applyTextFields, ha] using ih id3 added h
      · by_cases he : fieldEmpty tags k0
        · by_cases hc : k0 ∈ tag_classes
          · simpa [applyTextFields, ha, he, hc] using
              ih (dinsert k0 (Frame.text [v0]) id3) (dinsert k0 v0 added)
                (keys_dinsert_nodup k0 v0 h)
          · simpa [applyTextFields, ha, he, hc] using ih id3 added h
        · simpa [applyTextFields, ha, he] using ih id3 added h

/-- The text-field loop never creates or removes picture keys. -/
theorem applyTextFields_hasApic (tags : List (String × String)) :
    ∀ (nm : List (String × String)) (id3 : ID3) (added : List (String × String)),
      hasApicKey (applyTextFields tags nm id3 added).1 = hasApicKey id3 := by
  intro nm
  induction nm with
  | nil => intro id3 added; simp [applyTextFields]
  | cons hd rest ih =>
      obtain ⟨k0, v0⟩ := hd
      intro id3 added
      by_cases ha : k0 = "artwork_url"
      · simpa [applyTextFields, ha] using ih id3 added
      · by_cases he : fieldEmpty tags k0
        · by_cases hc : k0 ∈ tag_classes
          · have hap : strStarts k0 "APIC" = false := tag_classes_not_apic k0 hc
            have := ih (dinsert k0 (Frame.text [v0]) id3) (dinsert k0 v0 added)
            simp only [applyTextFields, ha, if_false, he, if_true, hc, if_pos]
            rw [this]
            simp only [hasApicKey]
            exact any_keys_dinsert (p := fun s => strStarts s "APIC") hap (Frame.text [v0]) id3
          · simpa [applyTextFields, ha, he, hc] using ih id3 added
        · simpa [applyTextFields, ha, he] using ih id3 added

/-- The artwork stage of update_metadata only ever touches the artwork
note key in the added map and the APIC: key in the frame map: every other
key keeps the binding and multiplicity produced by the text-field loop. -/
theorem update_metadata_other_keys (id3 : ID3) (nm : List (String × String))
    (fetch : Option (List Nat)) (k : String)
    (hk1 : k ≠ "artwork") (hk2 : k ≠ "APIC:") :
    dlookup k (update_metadata id3 nm fetch).added = dlookup k (textStage id3 nm).2 ∧
      dlookup k (update_metadata id3 nm fetch).id3 = dlookup k (textStage id3 nm).1 ∧
      List.count k ((update_metadata id3 nm fetch).added.map Prod.fst) =
        List.count k ((textStage id3 nm).2.map Prod.fst) := by
  have ha : "artwork" ≠ k := fun he => hk1 he.symm
  have hc : "APIC:" ≠ k := fun he => hk2 he.symm
  cases hurl : dlookup "artwork_url" nm with
  | none => simp [update_metadata, textStage, hurl]
  | some url =>
      by_cases hu : url = ""
      · simp [update_metadata, textStage, hurl, hu]
      · by_cases hap : hasApicKey (textStage id3 nm).1
        · simp only [textStage] at hap
          simp [update_metadata, textStage, hurl, hu, hap, dlookup_dinsert_ne ha,
            count_keys_dinsert_ne ha]
        · simp only [textStage] at hap
          cases fetch with
          | none => simp [update_metadata, textStage, hurl, hu, hap]
          | some data =>
              simp [update_metadata, textStage, hurl, hu, hap, dlookup_dinsert_ne ha,
                dlookup_dinsert_ne hc, count_keys_dinsert_ne ha]

/-- The artwork stage writes frames only under the APIC: key: lookups of
every other frame key see exactly the text-field loop result. -/
theorem update_metadata_id3_other (id3 : ID3) (nm : List (String × String))
    (fetch : Option (List Nat)) (k : String) (hk2 : k ≠ "APIC:") :
    dlookup k (update_metadata id3 nm fetch).id3 = dlookup k (textStage id3 nm).1 := by
  have hc : "APIC:" ≠ k := fun he => hk2 he.symm
  cases hurl : dlookup "artwork_url" nm with
  | none => simp [update_metadata, textStage, hurl]
  | some url =>
      by_cases hu : url = ""
      · simp [update_metadata, textStage, hurl, hu]
      · by_cases hap : hasApicKey (textStage id3 nm).1
        · simp only [textStage] at hap
          simp [update_metadata, textStage, hurl, hu, hap]
        · simp only [textStage] at hap
          cases fetch with
          | none => simp [update_metadata, textStage, hurl, hu, hap]
          | some data => simp [update_metadata, textStage, hurl, hu, hap, dlookup_dinsert_ne hc]

/-- When a picture key is present after the text-field loop, the artwork
stage writes no frame at all, whatever the fetch outcome. -/
theorem update_metadata_id3_of_hasApic (id3 : ID3) (nm : List (String × String))
    (fetch : Option (List Nat)) (h : hasApicKey (textStage id3 nm).1 = true) :
    (update_metadata id3 nm fetch).id3 = (textStage id3 nm).1 := by
  simp only [textStage] at h
  cases hurl : dlookup "artwork_url" nm with
  | none => simp [update_metadata, textStage, hurl]
  | some url =>
      by_cases hu : url = ""
      · simp [update_metadata, textStage, hurl, hu]
      · simp [update_metadata, textStage, hurl, hu, h]

/-- C1: for every tag field code that is already present with a non-empty
value in the Tag Set of the file, update_metadata leaves the frame stored
under that code unchanged, no matter what value the candidate metadata
supplies for it and whatever the artwork fetch outcome is. -/
theorem update_tags_preserves_nonempty_fields (id3 : ID3) (nm : List (String × String))
    (fetch : Option (List Nat)) (k v : String)
    (hv : dlookup k (get_metadata id3) = some v) (hne : v ≠ "") :
    dlookup k (update_metadata id3 nm fetch).id3 = dlookup k id3 := by
  have hfe : fieldEmpty (get_metadata id3) k = false := by
    simp [fieldEmpty, hv, hne]
  have hstage := applyTextFields_no_write (get_metadata id3) k (Or.inl hfe) nm id3 []
  by_cases hk : k = "APIC:"
  · subst hk
    have hmem := dlookup_get_metadata_mem hv
    have hapic : hasApicKey id3 = true := by
      simp only [hasApicKey, List.any_eq_true]
      obtain ⟨a, hain, hafst⟩ := List.mem_map.mp hmem
      exact ⟨a, hain, by rw [hafst]; decide⟩
    have hstageApic : hasApicKey (textStage id3 nm).1 = true := by
      rw [textStage, applyTextFields_hasApic]
      exact hapic
    rw [update_metadata_id3_of_hasApic id3 nm fetch hstageApic]
    exact hstage.1
  · rw [update_metadata_id3_other id3 nm fetch k hk]
    exact hstage.1

/-- Closed check for the non-clobber theorem: a file holding the title
Hello keeps it when the candidate metadata supplies a different title. -/
theorem update_tags_preserves_nonempty_fields_check :
    dlookup "TIT2" (get_metadata [("TIT2", Frame.text ["Hello"])]) = some "Hello" ∧
      ("Hello" : String) ≠ "" ∧
      dlookup "TIT2"
          (update_metadata [("TIT2", Frame.text ["Hello"])] [("TIT2", "Other")] none).id3 =
        dlookup "TIT2" [("TIT2", Frame.text ["Hello"])] :=
  ⟨by decide, by decide,
    update_tags_preserves_nonempty_fields [("TIT2", Frame.text ["Hello"])] [("TIT2", "Other")]
      none "TIT2" "Hello" (by decide) (by decide)⟩

/-- C2 counterexample: the namespaced free-form genre code TXXX:GENRE is
part of the tag vocabulary, absent from an empty Tag Set and present in
the candidate metadata, yet update_metadata neither reports it in the
added map nor writes any frame, because the writable-frame table only
contains the bare TXXX code. -/
theorem genre_field_dropped_by_update :
    dlookup "TXXX:GENRE" (get_metadata []) = none ∧
      dlookup "TXXX:GENRE" [("TXXX:GENRE", "rock, alternative")] = some "rock, alternative" ∧
      (update_metadata [] [("TXXX:GENRE", "rock, alternative")] none).added = [] ∧
      (update_metadata [] [("TXXX:GENRE", "rock, alternative")] none).id3 = [] := by
  refine ⟨by decide, by decide, ?_, ?_⟩ <;> decide

/-- C2 amended: for every field code of the writable-frame table (title,
artist, album, year, composer and the bare TXXX code — the namespaced
genre code is not in the table and is dropped) that is absent or empty in
the current Tag Set and present in the candidate metadata, update_metadata
writes a text frame with the candidate value and reports the field in the
added map exactly once. -/
theorem update_tags_writes_absent_writable_fields (id3 : ID3) (nm : List (String × String))
    (fetch : Option (List Nat)) (k v : String)
    (hk : k ∈ tag_classes)
    (he : fieldEmpty (get_metadata id3) k = true)
    (hv : dlookup k nm = some v)
    (hnd : (nm.map Prod.fst).Nodup) :
    dlookup k (update_metadata id3 nm fetch).added = some v ∧
      List.count k ((update_metadata id3 nm fetch).added.map Prod.fst) = 1 ∧
      dlookup k (update_metadata id3 nm fetch).id3 = some (Frame.text [v]) := by
  have hka : k ≠ "artwork" := fun hkk => artwork_not_tag_class (hkk ▸ hk)
  have hkc : k ≠ "APIC:" := fun hkk => apic_not_tag_class (hkk ▸ hk)
  have hstage := applyTextFields_write (get_metadata id3) k v he hk nm id3 [] hnd hv
  have hparts := update_metadata_other_keys id3 nm fetch k hka hkc
  refine ⟨?_, ?_, ?_⟩
  · rw [hparts.1]; exact hstage.2
  · rw [hparts.2.2]
    have hnda : ((textStage id3 nm).2.map Prod.fst).Nodup :=
      applyTextFields_added_nodup (get_metadata id3) nm id3 [] (by simp)
    have hmem : k ∈ (textStage id3 nm).2.map Prod.fst := mem_keys_of_dlookup hstage.2
    exact List.count_eq_one_of_mem hnda hmem
  · rw [update_metadata_id3_other id3 nm fetch k hkc]; exact hstage.1

/-- Closed check for the amended write theorem: an absent artist field
supplied by the candidate metadata is written and reported once. -/
theorem update_tags_writes_absent_writable_fields_check :
    ("TPE1" ∈ tag_classes ∧ fieldEmpty (get_metadata []) "TPE1" = true ∧
        dlookup "TPE1" [("TPE1", "Test Artist")] = some "Test Artist" ∧
        (([("TPE1", "Test Artist")] : List (String × String)).map Prod.fst).Nodup) ∧
      dlookup "TPE1" (update_metadata [] [("TPE1", "Test Artist")] none).added =
          some "Test Artist" ∧
        List.count "TPE1" ((update_metadata [] [("TPE1", "Test Artist")] none).added.map
            Prod.fst) = 1 ∧
        dlookup "TPE1" (update_metadata [] [("TPE1", "Test Artist")] none).id3 =
          some (Frame.text ["Test Artist"]) :=
  ⟨⟨by decide, by decide, by decide, by decide⟩,
    update_tags_writes_absent_writable_fields [] [("TPE1", "Test Artist")] none "TPE1"
      "Test Artist" (by decide) (by decide) (by decide) (by decide)⟩

/-- C8: when the candidate metadata carries a non-empty artwork reference,
update_metadata behaves as follows.  If a picture key already exists the
fetch is not performed and a skipped note is recorded, with no picture
frame written.  If none exists and the fetch fails, the call still returns
normally with no artwork entry in the added map and no picture frame
written.  If the fetch succeeds, the image is classified and embedded
under the APIC: key as picture type three with the Cover (front)
description, and an added note naming the mime type is recorded. -/
theorem artwork_branch_behavior (id3 : ID3) (nm : List (String × String))
    (fetch : Option (List Nat)) (url : String)
    (hurl : dlookup "artwork_url" nm = some url) (hne : url ≠ "") :
    (hasApicKey id3 = true →
        (update_metadata id3 nm fetch).fetchPerformed = false ∧
        dlookup "artwork" (update_metadata id3 nm fetch).added =
          some "Artwork already exists, skipped" ∧
        ∀ k2, strStarts k2 "APIC" = true →
          dlookup k2 (update_metadata id3 nm fetch).id3 = dlookup k2 id3) ∧
      (hasApicKey id3 = false → fetch = none →
        (update_metadata id3 nm fetch).fetchPerformed = true ∧
        dlookup "artwork" (update_metadata id3 nm fetch).added = none ∧
        ∀ k2, strStarts k2 "APIC" = true →
          dlookup k2 (update_metadata id3 nm fetch).id3 = dlookup k2 id3) ∧
      (∀ data, hasApicKey id3 = false → fetch = some data →
        (update_metadata id3 nm fetch).fetchPerformed = true ∧
        dlookup "APIC:" (update_metadata id3 nm fetch).id3 =
          some (Frame.apic (some (get_mime_type url data)) 3 "Cover (front)" data) ∧
        dlookup "artwork" (update_metadata id3 nm fetch).added =
          some ("Added album artwork (" ++ get_mime_type url data ++ ")")) := by
  have hstageApic : hasApicKey (textStage id3 nm).1 = hasApicKey id3 := by
    rw [textStage, applyTextFields_hasApic]
  have happrev : ∀ k2, strStarts k2 "APIC" = true →
      dlookup k2 (textStage id3 nm).1 = dlookup k2 id3 := by
    intro k2 h2
    have hnc : k2 ∉ tag_classes := by
      intro hmem
      rw [tag_classes_not_apic k2 hmem] at h2
      simp at h2
    exact (applyTextFields_no_write (get_metadata id3) k2 (Or.inr hnc) nm id3 []).1
  have hartw : dlookup "artwork" (textStage id3 nm).2 = none :=
    (applyTextFields_no_write (get_metadata id3) "artwork"
      (Or.inr artwork_not_tag_class) nm id3 []).2
  refine ⟨?_, ?_, ?_⟩
  · intro hap
    have hap2 : hasApicKey (applyTextFields (get_metadata id3) nm id3 []).1 = true := by
      rw [← textStage, hstageApic]; exact hap
    refine ⟨?_, ?_, ?_⟩
    · simp [update_metadata, hurl, hne, hap2]
    · simp only [update_metadata, hurl, hne, if_false, hap2, if_true]
      rw [dlookup_dinsert_self]
    · intro k2 h2
      have := happrev k2 h2
      simpa [update_metadata, hurl, hne, hap2, textStage] using this
  · intro hap hf
    subst hf
    have hap2 : hasApicKey (applyTextFields (get_metadata id3) nm id3 []).1 = false := by
      rw [← textStage, hstageApic]; exact hap
    refine ⟨?_, ?_, ?_⟩
    · simp [update_metadata, hurl, hne, hap2]
    · simpa [update_metadata, hurl, hne, hap2, textStage] using hartw
    · intro k2 h2
      have := happrev k2 h2
      simpa [update_metadata, hurl, hne, hap2, textStage] using this
  · intro data hap hf
    subst hf
    have hap2 : hasApicKey (applyTextFields (get_metadata id3) nm id3 []).1 = false := by
      rw [← textStage, hstageApic]; exact hap
    refine ⟨?_, ?_, ?_⟩
    · simp [update_metadata, hurl, hne, hap2]
    · simp [update_metadata, hurl, hne, hap2, dlookup_dinsert_self]
    · simp [update_metadata, hurl, hne, hap2, dlookup_dinsert_self]

/-- Closed check for the artwork branch theorem at a concrete candidate
carrying an artwork reference and a successful fetch. -/
theorem artwork_branch_behavior_check :
    dlookup "artwork_url" [("artwork_url", "http://x/a.png")] = some "http://x/a.png" ∧
      ("http://x/a.png" : String) ≠ "" ∧
      ((hasApicKey [] = true →
          (update_metadata [] [("artwork_url", "http://x/a.png")] (some [1, 2, 3])).fetchPerformed
              = false ∧
          dlookup "artwork"
              (update_metadata [] [("artwork_url", "http://x/a.png")] (some [1, 2, 3])).added =
            some "Artwork already exists, skipped" ∧
          ∀ k2, strStarts k2 "APIC" = true →
            dlookup k2
                (update_metadata [] [("artwork_url", "http://x/a.png")] (some [1, 2, 3])).id3 =
              dlookup k2 []) ∧
        (hasApicKey [] = false → (some [1, 2, 3] : Option (List Nat)) = none →
          (update_metadata [] [("artwork_url", "http://x/a.png")] (some [1, 2, 3])).fetchPerformed
              = true ∧
          dlookup "artwork"
              (update_metadata [] [("artwork_url", "http://x/a.png")] (some [1, 2, 3])).added =
            none ∧
          ∀ k2, strStarts k2 "APIC" = true →
            dlookup k2
                (update_metadata [] [("artwork_url", "http://x/a.png")] (some [1, 2, 3])).id3 =
              dlookup k2 []) ∧
        (∀ data, hasApicKey [] = false → (some [1, 2, 3] : Option (List Nat)) = some data →
          (update_metadata [] [("artwork_url", "http://x/a.png")] (some [1, 2, 3])).fetchPerformed
              = true ∧
          dlookup "APIC:"
              (update_metadata [] [("artwork_url", "http://x/a.png")] (some [1, 2, 3])).id3 =
            some (Frame.apic (some (get_mime_type "http://x/a.png" data)) 3 "Cover (front)"
              data) ∧
          dlookup "artwork"
              (update_metadata [] [("artwork_url", "http://x/a.png")] (some [1, 2, 3])).added =
            some ("Added album artwork (" ++ get_mime_type "http://x/a.png" data ++ ")"))) :=
  ⟨by decide, by decide,
    artwork_branch_behavior [] [("artwork_url", "http://x/a.png")] (some [1, 2, 3])
      "http://x/a.png" (by decide) (by decide)⟩

/-- Appending strings appends their character lists. -/
theorem strData_append (a b : String) : (a ++ b).data = a.data ++ b.data := rfl

/-- C5 counterexample: a text frame whose text list is empty makes
get_metadata store an empty-string placeholder in the Tag Set, violating
the stated invariant that every present field holds a non-empty value. -/
theorem get_metadata_stores_empty_value :
    dlookup "TIT2" (get_metadata [("TIT2", Frame.text [])]) = some "" := by decide

/-- C5 amended: on a frame map with duplicate-free keys, every Tag Set
entry read by get_metadata is either the first text of the text frame
stored under the same key — which is the empty string when the frame has
no text or an empty first text, so the no-empty-placeholder invariant
does not hold — or a non-empty artwork marker coming from a picture
frame. -/
theorem get_metadata_value_shape (id3 : ID3) (hnd : (id3.map Prod.fst).Nodup) (k v : String)
    (h : dlookup k (get_metadata id3) = some v) :
    (∃ ts, dlookup k id3 = some (Frame.text ts) ∧ v = ts.headD "") ∨
      (v ≠ "" ∧
        ∃ mime ptype desc data, dlookup k id3 = some (Frame.apic mime ptype desc data)) := by
  obtain ⟨f, hf, hval⟩ := dlookup_get_metadata_frame hnd h
  cases f with
  | text ts =>
      left
      refine ⟨ts, hf, ?_⟩
      simp only [frameValue] at hval
      injection hval with h1
      exact h1.symm
  | apic mime ptype desc data =>
      right
      refine ⟨?_, mime, ptype, desc, data, hf⟩
      simp only [frameValue] at hval
      by_cases hs : strStarts k "APIC:"
      · rw [if_pos hs] at hval
        cases mime with
        | none =>
            injection hval with h1
            rw [← h1]
            decide
        | some m =>
            injection hval with h1
            rw [← h1]
            intro he
            have hd := congrArg String.data he
            simp only [strData_append] at hd
            simp at hd
      · rw [if_neg hs] at hval
        simp at hval

/-- Closed check for the Tag Set shape theorem at a one-frame file. -/
theorem get_metadata_value_shape_check :
    ((([("TIT2", Frame.text ["A"])] : ID3).map Prod.fst).Nodup ∧
        dlookup "TIT2" (get_metadata [("TIT2", Frame.text ["A"])]) = some "A") ∧
      ((∃ ts, dlookup "TIT2" [("TIT2", Frame.text ["A"])] = some (Frame.text ts) ∧
          "A" = ts.headD "") ∨
        (("A" : String) ≠ "" ∧
          ∃ mime ptype desc data,
            dlookup "TIT2" [("TIT2", Frame.text ["A"])] =
              some (Frame.apic mime ptype desc data))) :=
  ⟨⟨by decide, by decide⟩,
    get_metadata_value_shape [("TIT2", Frame.text ["A"])] (by decide) "TIT2" "A" (by decide)⟩

/-- C3: both matchers are functions of the raw results and the seed pair
that return the first candidate in result order passing the bidirectional
case-insensitive substring tests — restricted to track-typed entries for
the storefront matcher — and none exactly when no candidate passes, since
a first-match scan equals find? of the combined predicate. -/
theorem find_matching_track_first_match :
    (∀ (rs : List BCResult) (a t : String),
        bc_find_matching_track (some rs) a t =
          rs.find? (fun r => isTrackType r && (bcArtistOk a r && bcTitleOk t r))) ∧
      (∀ a t, bc_find_matching_track none a t = none) ∧
      (∀ (rs : List MBRecording) (a t : String),
        mb_find_matching_track (some rs) a t = rs.find? (mbMatches a t)) ∧
      (∀ a t, mb_find_matching_track none a t = none) := by
  refine ⟨?_, fun a t => rfl, ?_, fun a t => rfl⟩
  · intro rs a t
    simp only [bc_find_matching_track]
    induction rs with
    | nil => rfl
    | cons r rest ih =>
        by_cases h1 : isTrackType r
        · by_cases h2 : bcArtistOk a r && bcTitleOk t r
          · simp [bcScan, h1, h2, List.find?_cons]
          · simp only [bcScan, h1, if_true, h2, if_false, List.find?_cons,
              Bool.and_eq_true] at *
            simp [h1, h2, ih]
        · simp only [bcScan, h1, if_false, List.find?_cons] at *
          simp [h1, ih]
  · intro rs a t
    simp only [mb_find_matching_track]
    induction rs with
    | nil => rfl
    | cons r rest ih =>
        by_cases h2 : mbMatches a t r
        · simp [mbScan, h2, List.find?_cons]
        · simp only [mbScan, h2, if_false, List.find?_cons] at *
          simp [h2, ih]

/-- The empty needle occurs in every haystack, as for the Python substring
operator. -/
theorem listHasRun_nil {α : Type} [DecidableEq α] (l : List α) :
    listHasRun ([] : List α) l = true := by
  cases l <;> simp [listHasRun, listStarts]

/-- The empty string is a substring of every string. -/
theorem strIn_empty (s : String) : strIn "" s = true := listHasRun_nil s.data

/-- C9: for every seed, a track-typed storefront candidate whose band_name
field is absent or empty passes the artist predicate and one whose name
field is absent or empty passes the title predicate, because the empty
string is a substring of every string; consequently a track-typed
candidate with both fields absent placed first in the results is returned
as the match for every seed. -/
theorem empty_fields_match_any_seed (a t : String) (rest : List BCResult) :
    bcArtistOk a blankTrack = true ∧
      bcTitleOk t blankTrack = true ∧
      (∀ ty nmf, bcArtistOk a { type := ty, band_name := some "", name := nmf } = true) ∧
      (∀ ty bnf, bcTitleOk t { type := ty, band_name := bnf, name := some "" } = true) ∧
      bc_find_matching_track (some (blankTrack :: rest)) a t = some blankTrack := by
  have hart : ∀ nmf ty, bcArtistOk a { type := ty, band_name := some "", name := nmf } = true := by
    intro nmf ty
    simp [bcArtistOk, pyLower, strIn_empty, strIn, listHasRun_nil]
  have htit : ∀ bnf ty, bcTitleOk t { type := ty, band_name := bnf, name := some "" } = true := by
    intro bnf ty
    simp [bcTitleOk, pyLower, strIn_empty, strIn, listHasRun_nil]
  have hart0 : bcArtistOk a blankTrack = true := by
    simp [bcArtistOk, blankTrack, pyLower, strIn, listHasRun_nil]
  have htit0 : bcTitleOk t blankTrack = true := by
    simp [bcTitleOk, blankTrack, pyLower, strIn, listHasRun_nil]
  refine ⟨hart0, htit0, fun ty nmf => hart nmf ty, fun ty bnf => htit bnf ty, ?_⟩
  have htype : isTrackType blankTrack = true := by decide
  have hboth : (bcArtistOk a blankTrack && bcTitleOk t blankTrack) = true := by
    rw [hart0, htit0]; rfl
  simp [bc_find_matching_track, bcScan, htype, hboth]

/-- A lookup skips an appended fragment that does not bind the key. -/
theorem dlookup_append_none {β : Type} {k : String} {l1 : List (String × β)}
    (h : dlookup k l1 = none) (l2 : List (String × β)) :
    dlookup k (l1 ++ l2) = dlookup k l2 := by
  rw [dlookup_append, h]

/-- A lookup stops in the first appended fragment that binds the key. -/
theorem dlookup_append_left {β : Type} {k : String} {l1 : List (String × β)} {v : β}
    (h : dlookup k l1 = some v) (l2 : List (String × β)) :
    dlookup k (l1 ++ l2) = some v := by
  rw [dlookup_append, h]

/-- The title branch binds only the TIT2 key. -/
theorem dlookup_mbTitleField (r : MBRecording) {k : String} (h : ¬ "TIT2" = k) :
    dlookup k (mbTitleField r) = none := by
  cases ht : r.title <;> simp [mbTitleField, ht, dlookup, h]

/-- The artist branch binds only the TPE1 key. -/
theorem dlookup_mbArtistField (r : MBRecording) {k : String} (h : ¬ "TPE1" = k) :
    dlookup k (mbArtistField r) = none := by
  by_cases hc : r.artistCredit = [] <;> simp [mbArtistField, hc, dlookup, h]

/-- The album branch binds only the TALB key. -/
theorem dlookup_mbAlbumField (r : MBRecording) {k : String} (h : ¬ "TALB" = k) :
    dlookup k (mbAlbumField r) = none := by
  cases hrel : r.releases with
  | nil => simp [mbAlbumField, hrel, dlookup]
  | cons rel rest => cases hrt : rel.title <;> simp [mbAlbumField, hrel, hrt, dlookup, h]

/-- The year branch binds only the TDRC key. -/
theorem dlookup_mbYearField (r : MBRecording) {k : String} (h : ¬ "TDRC" = k) :
    dlookup k (mbYearField r) = none := by
  cases hrel : r.releases with
  | nil => simp [mbYearField, hrel, dlookup]
  | cons rel rest =>
      cases hrd : rel.date with
      | none => simp [mbYearField, hrel, hrd, dlookup]
      | some d =>
          by_cases hd : d = ""
          · simp [mbYearField, hrel, hrd, hd, dlookup]
          · by_cases hdig : pyIsDigit (pyYear d)
            · simp [mbYearField, hrel, hrd, hd, hdig, dlookup, h]
            · simp [mbYearField, hrel, hrd, hd, hdig, dlookup]

/-- The composer branch binds only the TCOM key. -/
theorem dlookup_mbComposerField (r : MBRecording) {k : String} (h : ¬ "TCOM" = k) :
    dlookup k (mbComposerField r) = none := by
  cases hc : r.artistCredit with
  | nil => simp [mbComposerField, hc, dlookup]
  | cons c rest => cases hn : creditName c <;> simp [mbComposerField, hc, hn, dlookup, h]

/-- The stable descending sort is a permutation of the tag list, so it is
non-empty exactly when the tag list is. -/
theorem tagSortDescending_ne_nil {tags : List MBTag} (h : tags ≠ []) :
    tagSortDescending tags ≠ [] := by
  intro h0
  apply h
  have hlen : (tagSortDescending tags).length = tags.length :=
    (List.mergeSort_perm tags (fun a b => decide (b.count.getD 0 ≤ a.count.getD 0))).length_eq
  rw [h0] at hlen
  exact List.eq_nil_of_length_eq_zero hlen.symm

/-- C6: for every candidate with a non-empty tag list, the extracted
genre field is the comma-space join of the names of the first three
entries of the stable descending count sort — hence never more than three
entries — where that sort is a permutation of the tag list that is
pairwise non-increasing on counts; on the spec scenario (counts 10, 5, 1,
1) the extraction yields exactly rock, alternative, x, keeping source
order on the tied count. -/
theorem genre_top_three_tags (r : MBRecording) (hne : r.tags ≠ []) :
    dlookup "TXXX:GENRE" (extract_musicbrainz_metadata r) =
        some (pyJoin ", " (((tagSortDescending r.tags).take 3).map MBTag.name)) ∧
      (((tagSortDescending r.tags).take 3).map MBTag.name).length ≤ 3 ∧
      (tagSortDescending r.tags).Perm r.tags ∧
      (tagSortDescending r.tags).Pairwise (fun a b => b.count.getD 0 ≤ a.count.getD 0) ∧
      extract_musicbrainz_metadata scenarioRecording =
        [("TXXX:GENRE", "rock, alternative, x")] := by
  have hsne : tagSortDescending r.tags ≠ [] := tagSortDescending_ne_nil hne
  have htop : ((tagSortDescending r.tags).take 3).map MBTag.name ≠ [] := by
    cases hs : tagSortDescending r.tags with
    | nil => exact absurd hs hsne
    | cons a l => simp [List.take]
  have hgen : mbGenreField r =
      [("TXXX:GENRE", pyJoin ", " (((tagSortDescending r.tags).take 3).map MBTag.name))] := by
    simp [mbGenreField, hne, htop, hsne]
  refine ⟨?_, ?_, ?_, ?_, ?_⟩
  · simp only [extract_musicbrainz_metadata, List.append_assoc]
    rw [dlookup_append_none (dlookup_mbTitleField r (by decide)),
      dlookup_append_none (dlookup_mbArtistField r (by decide)),
      dlookup_append_none (dlookup_mbAlbumField r (by decide)),
      dlookup_append_none (dlookup_mbYearField r (by decide)),
      dlookup_append_none (dlookup_mbComposerField r (by decide)), hgen]
    simp [dlookup]
  · calc (((tagSortDescending r.tags).take 3).map MBTag.name).length
        = ((tagSortDescending r.tags).take 3).length := List.length_map _ _
      _ ≤ 3 := by rw [List.length_take]; exact min_le_left _ _
  · exact List.mergeSort_perm r.tags _
  · have hp := @List.sorted_mergeSort MBTag
      (fun a b : MBTag => decide (b.count.getD 0 ≤ a.count.getD 0))
      (fun a b c hab hbc => by
        simp only [decide_eq_true_eq] at *
        exact le_trans hbc hab)
      (fun a b => by
        simp only [Bool.or_eq_true, decide_eq_true_eq]
        exact (le_total (b.count.getD 0) (a.count.getD 0)))
      r.tags
    exact hp.imp (fun hab => by simpa using hab)
  · have hsc : tagSortDescending
        [⟨"rock", some 10⟩, ⟨"alternative", some 5⟩, ⟨"x", some 1⟩, ⟨"y", some 1⟩] =
        [⟨"rock", some 10⟩, ⟨"alternative", some 5⟩, ⟨"x", some 1⟩, ⟨"y", some 1⟩] := by
      unfold tagSortDescending
      exact List.mergeSort_of_sorted (by decide)
    simp only [extract_musicbrainz_metadata, mbTitleField, mbArtistField, mbAlbumField,
      mbYearField, mbComposerField, mbGenreField, scenarioRecording]
    rw [hsc]
    decide

/-- Closed check for the genre theorem at the scenario recording. -/
theorem genre_top_three_tags_check :
    scenarioRecording.tags ≠ [] ∧
      dlookup "TXXX:GENRE" (extract_musicbrainz_metadata scenarioRecording) =
        some (pyJoin ", " (((tagSortDescending scenarioRecording.tags).take 3).map
          MBTag.name)) :=
  ⟨by decide, (genre_top_three_tags scenarioRecording (by decide)).1⟩

/-- C7 counterexample: a release date of 12345 makes metadata extraction
emit a year value of five digits, so the emitted year is not always
exactly four digits. -/
theorem year_not_four_digits :
    dlookup "TDRC" (extract_musicbrainz_metadata badYearRecording) = some "12345" ∧
      ("12345" : String).length ≠ 4 := by
  constructor <;> decide

/-- C7 amended: for every candidate whose first release carries a
non-empty date string, when the piece of the date before the first dash
(the whole date when it has no dash) consists solely of digits, metadata
extraction emits that piece as the year field; every emitted year value
is therefore a non-empty all-digit string, but its length is not
constrained to four. -/
theorem year_digit_string (r : MBRecording) (rel : Release) (rest : List Release) (d : String)
    (hrel : r.releases = rel :: rest) (hd : rel.date = some d) (hne : d ≠ "")
    (hdig : pyIsDigit (pyYear d) = true) :
    dlookup "TDRC" (extract_musicbrainz_metadata r) = some (pyYear d) ∧
      pyYear d ≠ "" ∧ (pyYear d).data.all Char.isDigit = true := by
  refine ⟨?_, ?_, ?_⟩
  · simp only [extract_musicbrainz_metadata, List.append_assoc]
    rw [dlookup_append_none (dlookup_mbTitleField r (by decide)),
      dlookup_append_none (dlookup_mbArtistField r (by decide)),
      dlookup_append_none (dlookup_mbAlbumField r (by decide))]
    refine dlookup_append_left ?_ _
    simp [mbYearField, hrel, hd, hne, hdig, dlookup]
  · have hd2 := hdig
    simp only [pyIsDigit, Bool.and_eq_true, Bool.not_eq_true'] at hd2
    intro he
    rw [he] at hd2
    simp at hd2
  · have hd2 := hdig
    simp only [pyIsDigit, Bool.and_eq_true] at hd2
    exact hd2.2

/-- Closed check for the year theorem at the date 2024-01-01. -/
theorem year_digit_string_check :
    (yearCheckRecording.releases = yearCheckRelease :: [] ∧
      yearCheckRelease.date = some "2024-01-01" ∧
      ("2024-01-01" : String) ≠ "" ∧ pyIsDigit (pyYear "2024-01-01") = true) ∧
      dlookup "TDRC" (extract_musicbrainz_metadata yearCheckRecording) =
          some (pyYear "2024-01-01") ∧
        pyYear "2024-01-01" ≠ "" ∧ (pyYear "2024-01-01").data.all Char.isDigit = true :=
  ⟨⟨by decide, by decide, by decide, by decide⟩,
    year_digit_string yearCheckRecording yearCheckRelease [] "2024-01-01"
      (by decide) (by decide) (by decide) (by decide)⟩

/-- C10 counterexample: a candidate with a non-empty artist-credit list
whose first entry is a dictionary without a name gets no composer field
at all, so extraction does not always emit a composer for a non-empty
credit list. -/
theorem composer_missing_when_first_credit_nameless :
    namelessCreditRecording.artistCredit ≠ [] ∧
      dlookup "TCOM" (extract_musicbrainz_metadata namelessCreditRecording) = none := by
  constructor <;> decide

/-- C10 amended: for every candidate with a non-empty artist-credit list
whose first entry carries a name (a named dictionary or a bare string),
extraction emits a composer field equal to that first name — never taken
from catalog composer data — together with the artist field, whose
space-joined value begins with that same name. -/
theorem composer_from_first_credit (r : MBRecording) (c : Credit) (rest : List Credit)
    (n : String) (hc : r.artistCredit = c :: rest) (hn : creditName c = some n) :
    dlookup "TCOM" (extract_musicbrainz_metadata r) = some n ∧
      dlookup "TPE1" (extract_musicbrainz_metadata r) = some (mbArtistText r) ∧
      (creditNames r.artistCredit).headD "" = n := by
  refine ⟨?_, ?_, ?_⟩
  · simp only [extract_musicbrainz_metadata, List.append_assoc]
    rw [dlookup_append_none (dlookup_mbTitleField r (by decide)),
      dlookup_append_none (dlookup_mbArtistField r (by decide)),
      dlookup_append_none (dlookup_mbAlbumField r (by decide)),
      dlookup_append_none (dlookup_mbYearField r (by decide))]
    refine dlookup_append_left ?_ _
    simp [mbComposerField, hc, hn, dlookup]
  · simp only [extract_musicbrainz_metadata, List.append_assoc]
    rw [dlookup_append_none (dlookup_mbTitleField r (by decide))]
    refine dlookup_append_left ?_ _
    have hcne : ¬ r.artistCredit = [] := by rw [hc]; simp
    simp [mbArtistField, hcne, dlookup]
  · rw [hc]
    cases c with
    | obj name =>
        cases name with
        | some m =>
            simp only [creditName, Option.some.injEq] at hn
            simp [creditNames, hn]
        | none => simp [creditName] at hn
    | str s =>
        simp only [creditName, Option.some.injEq] at hn
        simp [creditNames, hn]
    | other => simp [creditName] at hn

/-- Closed check for the composer theorem at a two-credit recording. -/
theorem composer_from_first_credit_check :
    (twoCreditRecording.artistCredit = Credit.str "DJ A" :: [Credit.str "MC B"] ∧
      creditName (Credit.str "DJ A") = some "DJ A") ∧
      dlookup "TCOM" (extract_musicbrainz_metadata twoCreditRecording) = some "DJ A" ∧
        dlookup "TPE1" (extract_musicbrainz_metadata twoCreditRecording) =
          some (mbArtistText twoCreditRecording) ∧
        (creditNames twoCreditRecording.artistCredit).headD "" = "DJ A" :=
  ⟨⟨by decide, by decide⟩,
    composer_from_first_credit twoCreditRecording (Credit.str "DJ A") [Credit.str "MC B"]
      "DJ A" (by decide) (by decide)⟩

/-- The success slot of the loop is the already-found result when one
exists, and otherwise the first successful outcome of the remaining
sources. -/
theorem enrichLoop_success {α : Type} :
    ∀ (ss : List (SourceOutcome α)) (res : List (String × Except String α)) (succ : Option α),
      (enrichLoop ss res succ).2 =
        match succ with
        | some r => some r
        | none => firstSuccess ss := by
  intro ss
  induction ss with
  | nil => intro res succ; cases succ <;> simp [enrichLoop, firstSuccess]
  | cons s rest ih =>
      intro res succ
      cases succ with
      | some r => cases ho : s.outcome <;> simp [enrichLoop, ho, ih]
      | none => cases ho : s.outcome <;> simp [enrichLoop, ho, ih, firstSuccess]

/-- The loop leaves the binding of a name that none of the remaining
sources carries untouched. -/
theorem enrichLoop_results_not_mem {α : Type} (k : String) :
    ∀ (ss : List (SourceOutcome α)) (res : List (String × Except String α)) (succ : Option α),
      k ∉ ss.map SourceOutcome.name →
      dlookup k (enrichLoop ss res succ).1 = dlookup k res := by
  intro ss
  induction ss with
  | nil => intro res succ _; simp [enrichLoop]
  | cons s rest ih =>
      intro res succ hk
      simp only [List.map_cons, List.mem_cons] at hk
      push_neg at hk
      have hne : s.name ≠ k := fun he => hk.1 he.symm
      simp only [enrichLoop]
      rw [ih _ _ hk.2, dlookup_dinsert_ne hne]

/-- With duplicate-free source names, the loop records the outcome of
every source under its own name. -/
theorem enrichLoop_results_rec {α : Type} :
    ∀ (ss : List (SourceOutcome α)) (res : List (String × Except String α)) (succ : Option α),
      (ss.map SourceOutcome.name).Nodup →
      ∀ s ∈ ss, dlookup s.name (enrichLoop ss res succ).1 = some s.outcome := by
  intro ss
  induction ss with
  | nil => intro res succ _ s hs; simp at hs
  | cons s0 rest ih =>
      intro res succ hnd s hs
      simp only [List.map_cons, List.nodup_cons] at hnd
      rcases List.mem_cons.mp hs with hs1 | hs1
      · subst hs1
        simp only [enrichLoop]
        rw [enrichLoop_results_not_mem s.name rest _ _ hnd.1, dlookup_dinsert_self]
      · exact ih _ _ hnd.2 s hs1

/-- No source succeeds exactly when the first-success scan is empty. -/
theorem firstSuccess_none_iff {α : Type} (ss : List (SourceOutcome α)) :
    firstSuccess ss = none ↔ ∀ s ∈ ss, isOk s.outcome = false := by
  induction ss with
  | nil => simp [firstSuccess]
  | cons s rest ih =>
      cases ho : s.outcome with
      | ok r => simp [firstSuccess, ho, isOk]
      | error e =>
          simp only [firstSuccess, ho, List.mem_cons]
          constructor
          · intro h t ht
            rcases ht with ht | ht
            · subst ht; simp [isOk, ho]
            · exact (ih.mp h) t ht
          · intro h
            exact ih.mpr (fun t ht => h t (Or.inr ht))

/-- A successful first-success scan splits the source list at the first
succeeding source. -/
theorem firstSuccess_decomp {α : Type} :
    ∀ (ss : List (SourceOutcome α)) (r : α), firstSuccess ss = some r →
      ∃ pre srcOk post, ss = pre ++ srcOk :: post ∧
        (∀ p ∈ pre, isOk p.outcome = false) ∧ srcOk.outcome = Except.ok r := by
  intro ss
  induction ss with
  | nil => intro r h; simp [firstSuccess] at h
  | cons s rest ih =>
      intro r h
      cases ho : s.outcome with
      | ok r0 =>
          rw [firstSuccess, ho] at h
          injection h with h0
          exact ⟨[], s, rest, by simp, by simp, by rw [ho, h0]⟩
      | error e =>
          rw [firstSuccess, ho] at h
          obtain ⟨pre, srcOk, post, h1, h2, h3⟩ := ih r h
          refine ⟨s :: pre, srcOk, post, by simp [h1], ?_, h3⟩
          intro p hp
          rcases List.mem_cons.mp hp with hp1 | hp1
          · subst hp1; simp [isOk, ho]
          · exact h2 p hp1

/-- C4: over any registered source list with duplicate-free names,
enrich_with_all_sources fails with the error naming the file exactly when
every source fails; on success the returned record names the file,
reports every source under its own name with its own outcome — so an
early failure never hides a later source — and its primary enrichment is
the result of the first succeeding source in registration order, all
earlier sources having failed. -/
theorem enrich_with_all_sources_spec {α : Type} (fp : String)
    (sources : List (SourceOutcome α)) (hnd : (sources.map SourceOutcome.name).Nodup) :
    (enrich_with_all_sources fp sources =
        Except.error ("No data source could enrich the file \x27" ++ fp ++ "\x27") ↔
      ∀ s ∈ sources, isOk s.outcome = false) ∧
      ∀ res, enrich_with_all_sources fp sources = Except.ok res →
        res.file_path = fp ∧
        (∀ s ∈ sources, dlookup s.name res.all_results = some s.outcome) ∧
        ∃ pre srcOk post, sources = pre ++ srcOk :: post ∧
          (∀ s ∈ pre, isOk s.outcome = false) ∧
          srcOk.outcome = Except.ok res.successful_enrichment := by
  have hsucc : (enrichLoop sources [] none).2 = firstSuccess sources := by
    simpa using enrichLoop_success sources [] none
  constructor
  · constructor
    · intro he
      cases hfs : firstSuccess sources with
      | some r => simp [enrich_with_all_sources, hsucc, hfs] at he
      | none => exact (firstSuccess_none_iff sources).mp hfs
    · intro hall
      have hfs : firstSuccess sources = none := (firstSuccess_none_iff sources).mpr hall
      simp [enrich_with_all_sources, hsucc, hfs]
  · intro res hres
    cases hfs : firstSuccess sources with
    | none => simp [enrich_with_all_sources, hsucc, hfs] at hres
    | some r =>
        have hres2 : res = EnrichAllResult.mk fp r (enrichLoop sources [] none).1 := by
          simp only [enrich_with_all_sources, hsucc, hfs] at hres
          injection hres with h0
          exact h0.symm
        subst hres2
        refine ⟨rfl, ?_, ?_⟩
        · intro s hs
          exact enrichLoop_results_rec sources [] none hnd s hs
        · obtain ⟨pre, srcOk, post, h1, h2, h3⟩ := firstSuccess_decomp sources r hfs
          exact ⟨pre, srcOk, post, h1, h2, h3⟩

/-- Closed check for the registry theorem: with a failing first source
and a succeeding second one, the call is characterised at file song.mp3. -/
theorem enrich_with_all_sources_spec_check :
    (checkSources.map SourceOutcome.name).Nodup ∧
      ((enrich_with_all_sources "song.mp3" checkSources =
          Except.error ("No data source could enrich the file \x27song.mp3\x27") ↔
        ∀ s ∈ checkSources, isOk s.outcome = false) ∧
        ∀ res, enrich_with_all_sources "song.mp3" checkSources = Except.ok res →
          res.file_path = "song.mp3" ∧
          (∀ s ∈ checkSources, dlookup s.name res.all_results = some s.outcome) ∧
          ∃ pre srcOk post, checkSources = pre ++ srcOk :: post ∧
            (∀ s ∈ pre, isOk s.outcome = false) ∧
            srcOk.outcome = Except.ok res.successful_enrichment) :=
  ⟨by decide, enrich_with_all_sources_spec "song.mp3" checkSources (by decide)⟩
